import Mathlib

/-!
Verification of the audio stream caching service (hello-audio-stream, Rust).

Shallow embedding of the server core:
* `MmapCache` models `server/memory/memory_mapped_cache.rs` (`MemoryMappedCache`).
  The memory mapping is write-through, so the bytes of the on-disk file and of
  the mapping are represented by one list `content`; `mmapped` records whether
  the `mmap` field is `Some`, `fileOpen` whether the `file` field is `Some`,
  `fileExists` whether a file is present on disk at `path`, `size` the `size`
  field, `isOpen` the `is_open` field.  File-system operations (create, set_len,
  remove) are modelled as succeeding.
* `StreamContext` / `StreamStatus` model `server/memory/stream_context.rs`.
  `SystemTime` is modelled as a natural number supplied as a `now` argument.
* `StreamManager` models `server/memory/stream_manager.rs`; the `HashMap`
  registry is modelled extensionally as a function `String → Option StreamContext`.
* `handle_start`, `handle_binary_message`, `handle_get` model
  `server/handler/websocket_message_handler.rs`.
* `LockEv` traces model the lock acquire/release behaviour of
  `cleanup_old_streams` and `delete_stream` on the registry mutex.
-/

/-- Bytes are modelled as natural numbers. -/
abbrev Byte := Nat

/-- `file.set_len n` on a file whose bytes are `content`: truncate to `n`
bytes, or zero-extend up to `n` bytes. -/
def setLen (content : List Byte) (n : Nat) : List Byte :=
  content.take n ++ List.replicate (n - content.length) 0

/-- `mmap[offset..offset+data.len()].copy_from_slice(data)`: overwrite the
bytes at `[offset, offset + data.length)` with `data`. -/
def splice (content : List Byte) (offset : Nat) (data : List Byte) : List Byte :=
  content.take offset ++ data ++ content.drop (offset + data.length)

/-- Model of `MemoryMappedCache` (memory_mapped_cache.rs). -/
structure MmapCache where
  path : String
  fileExists : Bool
  fileOpen : Bool
  content : List Byte
  mmapped : Bool
  size : Nat
  isOpen : Bool
deriving DecidableEq

namespace MmapCache

/-- `MemoryMappedCache::new(path)`: all fields empty / closed.  `fileExists`
records whether some file is already on disk at `path` (external world state;
`create` removes it anyway). -/
def new (path : String) (fileExists : Bool) : MmapCache :=
  { path := path, fileExists := fileExists, fileOpen := false, content := [],
    mmapped := false, size := 0, isOpen := false }

/-- `MemoryMappedCache::map_file`: maps the whole file; fails when the file
handle is absent or the size is zero. -/
def map_file (c : MmapCache) : MmapCache × Bool :=
  if c.fileOpen then
    if 0 < c.size then ({ c with mmapped := true }, true) else (c, false)
  else (c, false)

/-- `MemoryMappedCache::create(initial_size)`: remove any existing file,
create and open a fresh one, set its length to `initial_size`, record the
size, map it when `initial_size > 0`, and mark the cache open. -/
def create (c : MmapCache) (initialSize : Nat) : MmapCache × Bool :=
  let c := { c with fileExists := true, fileOpen := true,
                    content := List.replicate initialSize 0, size := initialSize }
  if 0 < initialSize then
    let r := c.map_file
    if r.2 then ({ r.1 with isOpen := true }, true) else (r.1, false)
  else ({ c with isOpen := true }, true)

/-- `MemoryMappedCache::open`: fails when no file exists at `path`; otherwise
opens it, reads its length into `size`, maps it when the length is positive,
and marks the cache open. -/
def openFile (c : MmapCache) : MmapCache × Bool :=
  if c.fileExists then
    let c := { c with fileOpen := true, size := c.content.length }
    if 0 < c.size then
      let r := c.map_file
      if r.2 then ({ r.1 with isOpen := true }, true) else (r.1, false)
    else ({ c with isOpen := true }, true)
  else (c, false)

/-- `MemoryMappedCache::close`: when open, unmap (`unmap_file` sets the
`mmap` field to `None`); the file handle and the `is_open` flag are not
touched by the source. -/
def close (c : MmapCache) : MmapCache :=
  if c.isOpen then { c with mmapped := false } else c

/-- `MemoryMappedCache::resize(new_size)`: fails when not open; otherwise
unmap, `set_len` the file (skipped silently when the handle is absent),
record the new size, and remap when `new_size > 0`. -/
def resize (c : MmapCache) (newSize : Nat) : MmapCache × Bool :=
  if c.isOpen then
    let c := { c with mmapped := false }
    let c := if c.fileOpen then { c with content := setLen c.content newSize } else c
    let c := { c with size := newSize }
    if 0 < newSize then
      let r := c.map_file
      if r.2 then (r.1, true) else (r.1, false)
    else (c, true)
  else (c, false)

/-- `MemoryMappedCache::write(offset, data)`: when not open, `create` with
initial size `offset + data.len()`; grow via `resize` when the required size
exceeds the current size or no mapping exists; then copy `data` into the
mapping and return `data.len()`, or return `0` on any failure. -/
def write (c : MmapCache) (offset : Nat) (data : List Byte) : MmapCache × Nat :=
  let r0 := if c.isOpen then (c, true) else c.create (offset + data.length)
  if r0.2 then
    let c := r0.1
    let required := offset + data.length
    let current := c.size
    let hasMmap := c.mmapped
    let r1 := if current < required ∨ hasMmap = false
              then c.resize (max required current) else (c, true)
    if r1.2 then
      let c := r1.1
      if c.mmapped then
        if offset + data.length ≤ c.content.length then
          ({ c with content := splice c.content offset data }, data.length)
        else (c, 0)
      else (c, 0)
    else (r1.1, 0)
  else (r0.1, 0)

/-- `MemoryMappedCache::read(offset, length)`: when not open or not mapped,
try `open` first and return empty on failure; return empty when
`offset ≥ size`; otherwise return the `min(length, size - offset)` mapped
bytes starting at `offset` as a fresh vector. -/
def read (c : MmapCache) (offset : Nat) (length : Nat) : MmapCache × List Byte :=
  let r0 := if c.isOpen = false ∨ c.mmapped = false then c.openFile else (c, true)
  if r0.2 then
    let c := r0.1
    if c.size ≤ offset then (c, [])
    else
      let actualLength := min length (c.size - offset)
      if c.mmapped then
        if offset + actualLength ≤ c.content.length then
          (c, (c.content.drop offset).take actualLength)
        else (c, [])
      else (c, [])
  else (r0.1, [])

/-- `MemoryMappedCache::finalize(final_size)`: fails when not open; otherwise
`resize(final_size)` and flush (flushing does not change the bytes). -/
def finalize (c : MmapCache) (finalSize : Nat) : MmapCache × Bool :=
  if c.isOpen then
    let r := c.resize finalSize
    if r.2 then (r.1, true) else (r.1, false)
  else (c, false)

end MmapCache

/-- Model of `StreamStatus` (stream_context.rs). -/
inductive StreamStatus where
  | uploading
  | ready
  | error
deriving DecidableEq

/-- Model of `StreamContext` (stream_context.rs); `SystemTime` is a `Nat`. -/
structure StreamContext where
  streamId : String
  cachePath : String
  mmapFile : Option MmapCache
  currentOffset : Nat
  totalSize : Nat
  createdAt : Nat
  lastAccessedAt : Nat
  status : StreamStatus
deriving DecidableEq

/-- `StreamContext::new(stream_id, cache_path)`; `now` is the clock value. -/
def StreamContext.new (streamId cachePath : String) (now : Nat) : StreamContext :=
  { streamId := streamId, cachePath := cachePath, mmapFile := none,
    currentOffset := 0, totalSize := 0, createdAt := now, lastAccessedAt := now,
    status := .uploading }

/-- The registry `HashMap<String, Arc<Mutex<StreamContext>>>`, modelled
extensionally. -/
abbrev Registry := String → Option StreamContext

/-- Model of `StreamManager` (stream_manager.rs). -/
structure StreamManager where
  cacheDirectory : String
  streams : Registry

/-- Point update of the registry map. -/
def updateStream (r : Registry) (id : String) (ctx : StreamContext) : Registry :=
  fun k => if k = id then some ctx else r k

namespace StreamManager

/-- `StreamManager::get_cache_path`. -/
def get_cache_path (sm : StreamManager) (id : String) : String :=
  sm.cacheDirectory ++ "/" ++ id ++ ".cache"

/-- `StreamManager::create_stream(stream_id)`: fails when the id is present;
otherwise builds a fresh `StreamContext` in UPLOADING state, creates its
cache with `create(0)`, and inserts the context into the registry. -/
def create_stream (sm : StreamManager) (id : String) (now : Nat) :
    StreamManager × Bool :=
  if (sm.streams id).isSome then (sm, false)
  else
    let path := sm.get_cache_path id
    let ctx := StreamContext.new id path now
    let r := (MmapCache.new path false).create 0
    if r.2 then
      let ctx := { ctx with mmapFile := some r.1 }
      ({ sm with streams := updateStream sm.streams id ctx }, true)
    else (sm, false)

/-- `StreamManager::get_stream(stream_id)`: looks the context up and, when
present, updates its `last_accessed_at`. -/
def get_stream (sm : StreamManager) (id : String) (now : Nat) :
    StreamManager × Option StreamContext :=
  match sm.streams id with
  | none => (sm, none)
  | some ctx =>
    let ctx := { ctx with lastAccessedAt := now }
    ({ sm with streams := updateStream sm.streams id ctx }, some ctx)

/-- `StreamManager::delete_stream(stream_id)`: closes the cache, removes the
on-disk cache file, and removes the entry from the registry. -/
def delete_stream (sm : StreamManager) (id : String) : StreamManager × Bool :=
  match sm.streams id with
  | none => (sm, false)
  | some _ =>
    ({ sm with streams := fun k => if k = id then none else sm.streams k }, true)

/-- `StreamManager::write_chunk(stream_id, data)`: looks the stream up
(updating access time); rejects when absent, not UPLOADING, or without a
cache; writes at `current_offset`; on a positive byte count advances
`current_offset` and `total_size` and reports success, otherwise reports
failure.  The cache mutation persists either way (it happens through the
shared `Arc`). -/
def write_chunk (sm : StreamManager) (id : String) (data : List Byte)
    (now : Nat) : StreamManager × Bool :=
  let g := sm.get_stream id now
  match g.2 with
  | none => (g.1, false)
  | some ctx =>
    let sm := g.1
    if ctx.status ≠ .uploading then (sm, false)
    else
      match ctx.mmapFile with
      | none => (sm, false)
      | some cache =>
        let w := cache.write ctx.currentOffset data
        if 0 < w.2 then
          let ctx := { ctx with mmapFile := some w.1,
                                currentOffset := ctx.currentOffset + w.2,
                                totalSize := ctx.totalSize + w.2,
                                lastAccessedAt := now }
          ({ sm with streams := updateStream sm.streams id ctx }, true)
        else
          let ctx := { ctx with mmapFile := some w.1 }
          ({ sm with streams := updateStream sm.streams id ctx }, false)

/-- `StreamManager::read_chunk(stream_id, offset, length)`: looks the stream
up (updating access time); empty result when absent or without a cache;
otherwise `cache.read(offset, length)` followed by an access-time update. -/
def read_chunk (sm : StreamManager) (id : String) (offset : Nat)
    (length : Nat) (now : Nat) : StreamManager × List Byte :=
  let g := sm.get_stream id now
  match g.2 with
  | none => (g.1, [])
  | some ctx =>
    let sm := g.1
    match ctx.mmapFile with
    | none => (sm, [])
    | some cache =>
      let r := cache.read offset length
      let ctx := { ctx with mmapFile := some r.1, lastAccessedAt := now }
      ({ sm with streams := updateStream sm.streams id ctx }, r.2)

/-- `StreamManager::finalize_stream(stream_id)`: looks the stream up
(updating access time); rejects when absent, not UPLOADING, or without a
cache; calls `cache.finalize(total_size)`; on success sets the status to
READY and updates the access time. -/
def finalize_stream (sm : StreamManager) (id : String) (now : Nat) :
    StreamManager × Bool :=
  let g := sm.get_stream id now
  match g.2 with
  | none => (g.1, false)
  | some ctx =>
    let sm := g.1
    if ctx.status ≠ .uploading then (sm, false)
    else
      match ctx.mmapFile with
      | none => (sm, false)
      | some cache =>
        let f := cache.finalize ctx.totalSize
        if f.2 then
          let ctx := { ctx with mmapFile := some f.1, status := .ready,
                                lastAccessedAt := now }
          ({ sm with streams := updateStream sm.streams id ctx }, true)
        else
          let ctx := { ctx with mmapFile := some f.1 }
          ({ sm with streams := updateStream sm.streams id ctx }, false)

end StreamManager

/-- The registry operations, for statements quantifying over all of them. -/
inductive MgrOp where
  | opCreate (id : String)
  | opWrite (id : String) (data : List Byte)
  | opRead (id : String) (offset length : Nat)
  | opFinalize (id : String)
  | opDelete (id : String)
deriving DecidableEq

/-- Run one registry operation, keeping only the resulting manager state. -/
def StreamManager.applyOp (sm : StreamManager) (op : MgrOp) (now : Nat) :
    StreamManager :=
  match op with
  | .opCreate id => (sm.create_stream id now).1
  | .opWrite id data => (sm.write_chunk id data now).1
  | .opRead id offset length => (sm.read_chunk id offset length now).1
  | .opFinalize id => (sm.finalize_stream id now).1
  | .opDelete id => (sm.delete_stream id).1

/-! ### Lock traces for `cleanup_old_streams` (claim C3)

`cleanup_old_streams` and `delete_stream` both lock the registry mutex
(`self.streams.lock()`) for the whole body of their function.  The traces
below record, in program order, the acquire/release events each function
issues on that one mutex. -/

/-- An acquire or release of the registry mutex. -/
inductive LockEv where
  | acq
  | rel
deriving DecidableEq

/-- `delete_stream` locks the registry at its first line and holds the guard
to the end of the function. -/
def delete_stream_locks : List LockEv := [.acq, .rel]

/-- The ids `cleanup_old_streams(max_age_hours)` selects for deletion from a
snapshot of the registry entries: those with
`now.duration_since(last_accessed_at) > max_age_hours * 3600`
(`duration_since` fails, and the stream is kept, when the access time is in
the future). -/
def cleanup_to_remove (entries : List (String × StreamContext)) (now : Nat)
    (maxAgeHours : Nat) : List String :=
  (entries.filter (fun e =>
    e.2.lastAccessedAt ≤ now ∧ maxAgeHours * 3600 < now - e.2.lastAccessedAt)).map
    (fun e => e.1)

/-- The registry-mutex events issued by `cleanup_old_streams`: the `streams`
guard is taken at the top of the function and is still live during the
`delete_stream` calls of the for loop, being dropped only when the function
returns. -/
def cleanup_old_streams_locks (entries : List (String × StreamContext))
    (now : Nat) (maxAgeHours : Nat) : List LockEv :=
  [.acq]
    ++ (cleanup_to_remove entries now maxAgeHours).flatMap
        (fun _ => delete_stream_locks)
    ++ [.rel]

/-- `nestedAcquire t d = true` iff, starting from `d` locks already held by
this thread, the trace `t` at some point acquires the mutex while the thread
already holds it (for `std::sync::Mutex`, a deadlock or panic). -/
def nestedAcquire : List LockEv → Nat → Bool
  | [], _ => false
  | .acq :: t, d => decide (0 < d) || nestedAcquire t (d + 1)
  | .rel :: t, d => nestedAcquire t (d - 1)

/-- A trace re-acquires the registry mutex while already holding it. -/
def hasNestedAcquire (t : List LockEv) : Bool := nestedAcquire t 0

/-! ### WebSocket message handler (websocket_message_handler.rs) -/

/-- The fields of a parsed control message that the handlers consult; a
`none` models an absent field on the wire. -/
structure ControlMessage where
  streamId : Option String
  offset : Option Nat
  length : Option Nat
deriving DecidableEq

/-- What the handler sends back on the socket for one incoming message. -/
inductive HandlerReply where
  | startedReply (streamId : String)
  | stoppedReply (streamId : String)
  | errorReply (message : String)
  | binaryFrame (data : List Byte)
deriving DecidableEq

/-- Server-side state one handler call touches: the `clients` map
(connection id to active-stream-id binding) and the shared manager. -/
structure ServerConn where
  clients : Nat → Option String
  mgr : StreamManager

/-- `WebSocketMessageHandler::handle_start`: requires `streamId`; invokes
`create_stream`; on success overwrites this connection's binding with the
new id and replies STARTED, otherwise replies ERROR. -/
def handle_start (st : ServerConn) (clientId : Nat) (msg : ControlMessage)
    (now : Nat) : ServerConn × HandlerReply :=
  match msg.streamId with
  | none => (st, .errorReply "Missing streamId")
  | some sid =>
    let r := st.mgr.create_stream sid now
    if r.2 then
      ({ clients := fun k => if k = clientId then some sid else st.clients k,
         mgr := r.1 },
       .startedReply sid)
    else ({ st with mgr := r.1 }, .errorReply ("Failed to create stream: " ++ sid))

/-- `WebSocketMessageHandler::handle_binary_message`: looks up this
connection's active-stream binding; when absent or the empty string, the
frame is logged and discarded; otherwise `write_chunk` appends it. -/
def handle_binary_message (st : ServerConn) (clientId : Nat)
    (data : List Byte) (now : Nat) : ServerConn :=
  match st.clients clientId with
  | none => st
  | some sid =>
    if sid = "" then st
    else { st with mgr := (st.mgr.write_chunk sid data now).1 }

/-- `WebSocketMessageHandler::handle_get`: requires `streamId`; `offset`
defaults to 0 and `length` to 65536 when absent; invokes `read_chunk`; a
non-empty result is sent as one binary frame, an empty result produces an
ERROR reply. -/
def handle_get (st : ServerConn) (msg : ControlMessage) (now : Nat) :
    ServerConn × HandlerReply :=
  match msg.streamId with
  | none => (st, .errorReply "Missing streamId")
  | some sid =>
    let offset := msg.offset.getD 0
    let length := msg.length.getD 65536
    let r := st.mgr.read_chunk sid offset length now
    if r.2.isEmpty = false then
      ({ st with mgr := r.1 }, .binaryFrame r.2)
    else
      ({ st with mgr := r.1 },
       .errorReply ("Failed to read from stream: " ++ sid))

/-! ### Scenario helpers and concrete sample states -/

/-- Append a list of chunks to a stream with `write_chunk`, in order. -/
def writeAll (sm : StreamManager) (id : String) (chunks : List (List Byte))
    (now : Nat) : StreamManager :=
  chunks.foldl (fun s c => (s.write_chunk id c now).1) sm

/-- Consecutive read ranges starting at `start`, one per requested length. -/
def rangesOf (start : Nat) : List Nat → List (Nat × Nat)
  | [] => []
  | l :: ls => (start, l) :: rangesOf (start + l) ls

/-- Read the given `(offset, length)` ranges with `read_chunk` and
concatenate the results, threading the manager state through. -/
def readAll (sm : StreamManager) (id : String) (now : Nat) :
    List (Nat × Nat) → StreamManager × List Byte
  | [] => (sm, [])
  | (off, len) :: rest =>
    let r := sm.read_chunk id off len now
    let rs := readAll r.1 id now rest
    (rs.1, r.2 ++ rs.2)

/-- A manager with an empty registry. -/
def emptyManager : StreamManager :=
  { cacheDirectory := "cache", streams := fun _ => none }

/-- A manager holding the single freshly created stream `s1`. -/
def sampleManager : StreamManager := (emptyManager.create_stream "s1" 0).1

/-- The cache `create_stream` makes for `s1`: open, empty, not yet mapped. -/
def sampleCache0 : MmapCache :=
  { path := "cache/s1.cache", fileExists := true, fileOpen := true,
    content := [], mmapped := false, size := 0, isOpen := true }

/-- The context `sampleManager` holds for `s1`. -/
def sampleContext : StreamContext :=
  { streamId := "s1", cachePath := "cache/s1.cache",
    mmapFile := some sampleCache0, currentOffset := 0, totalSize := 0,
    createdAt := 0, lastAccessedAt := 0, status := .uploading }

/-- The context for `s1` after `finalize_stream` at time 3. -/
def finalizedContext : StreamContext :=
  { streamId := "s1", cachePath := "cache/s1.cache",
    mmapFile := some sampleCache0, currentOffset := 0, totalSize := 0,
    createdAt := 0, lastAccessedAt := 3, status := .ready }

/-- A concrete open, mapped cache holding one byte. -/
def sampleOpenCache : MmapCache :=
  { path := "cache/s1.cache", fileExists := true, fileOpen := true,
    content := [1], mmapped := true, size := 1, isOpen := true }

/-- A stream context whose last access lies in the past. -/
def staleContext : StreamContext := StreamContext.new "s1" "cache/s1.cache" 0

/-- A connection state: client 0 is bound to the uploading stream `s1`. -/
def sampleConn : ServerConn :=
  { clients := fun k => if k = 0 then some "s1" else none, mgr := sampleManager }

/-- Reachable-state invariant of the cache backing a stream whose payload so
far is `bytes`: open, file handle held, on-disk file present, content and
size in sync, mapped exactly when non-empty. -/
def CacheInv (c : MmapCache) (bytes : List Byte) : Prop :=
  c.content = bytes ∧ c.size = bytes.length ∧ c.isOpen = true ∧
  c.fileOpen = true ∧ c.fileExists = true ∧ c.mmapped = !bytes.isEmpty

/-- The cache handle is present and satisfies `CacheInv`. -/
def CacheOptInv : Option MmapCache → List Byte → Prop
  | none, _ => False
  | some cache, acc => CacheInv cache acc

/-- The context is present, UPLOADING, with cursor and total size equal to
the bytes appended so far, and a cache satisfying the invariant. -/
def CtxInv : Option StreamContext → List Byte → Prop
  | none, _ => False
  | some ctx, acc =>
    ctx.status = .uploading ∧ ctx.currentOffset = acc.length ∧
    ctx.totalSize = acc.length ∧ CacheOptInv ctx.mmapFile acc

/-- The context is present, READY, with total size equal to the payload
length and a cache satisfying the invariant. -/
def ReadyCtxInv : Option StreamContext → List Byte → Prop
  | none, _ => False
  | some ctx, B =>
    ctx.status = .ready ∧ ctx.totalSize = B.length ∧
    CacheOptInv ctx.mmapFile B

/-- Reachable-state invariant of an UPLOADING stream whose payload so far is
`acc`. -/
def StreamInv (sm : StreamManager) (id : String) (acc : List Byte) : Prop :=
  CtxInv (sm.streams id) acc

/-- State of a READY stream with payload `B` after finalization. -/
def ReadyInv (sm : StreamManager) (id : String) (B : List Byte) : Prop :=
  ReadyCtxInv (sm.streams id) B

theorem setLen_length (l : List Byte) (n : Nat) : (setLen l n).length = n := by
  simp [setLen]
  omega

theorem setLen_append_zeros (l : List Byte) (k : Nat) :
    setLen l (l.length + k) = l ++ List.replicate k 0 := by
  simp [setLen, List.take_of_length_le (Nat.le_add_right l.length k)]

theorem setLen_self (l : List Byte) : setLen l l.length = l := by
  simpa using setLen_append_zeros l 0

theorem splice_at_end (l data : List Byte) :
    splice (l ++ List.replicate data.length 0) l.length data = l ++ data := by
  unfold splice
  rw [List.take_left]
  have hlen : (l ++ List.replicate data.length 0).length = l.length + data.length := by
    simp
  rw [← hlen, List.drop_length, List.append_nil]

theorem splice_empty (l : List Byte) (off : Nat) : splice l off [] = l := by
  simp [splice, List.take_append_drop]

/-- One `MemoryMappedCache::write` at the current end of the payload: it
reports `data.length` bytes written (note: `0` for an empty `data`) and the
payload becomes `acc ++ data`. -/
theorem cache_write_append (c : MmapCache) (acc data : List Byte)
    (h : CacheInv c acc) :
    (c.write acc.length data).2 = data.length ∧
    CacheInv (c.write acc.length data).1 (acc ++ data) := by
  obtain ⟨hc, hs, ho, hf, he, hm⟩ := h
  rcases c with ⟨path, fe, fo, content, mm, size, io⟩
  simp only at hc hs ho hf he hm
  subst hc hs ho hf he hm
  rcases data with _ | ⟨b, bs⟩
  · rcases content with _ | ⟨a, as⟩ <;>
      simp [MmapCache.write, MmapCache.resize, MmapCache.map_file, CacheInv,
        setLen, splice_empty]
  · have hreq : content.length < content.length + (b :: bs).length := by
      simp
    have hmax : max (content.length + (b :: bs).length) content.length
        = content.length + (b :: bs).length :=
      Nat.max_eq_left (Nat.le_add_right _ _)
    have hsplice := splice_at_end content (b :: bs)
    simp only [List.length_cons] at hsplice
    simp only [MmapCache.write, MmapCache.resize, MmapCache.map_file]
    simp [hreq, hmax, setLen_append_zeros, setLen_length, hsplice, CacheInv]

/-- `MemoryMappedCache::read` on a cache satisfying the invariant returns
exactly the truncated slice and preserves the invariant (the only state it
may touch is a re-open of an unmapped zero-size cache, which is a no-op). -/
theorem cache_read_inv (c : MmapCache) (B : List Byte) (off len : Nat)
    (h : CacheInv c B) :
    (c.read off len).2 = (B.drop off).take (min len (B.length - off)) ∧
    CacheInv (c.read off len).1 B := by
  obtain ⟨hc, hs, ho, hf, he, hm⟩ := h
  rcases c with ⟨path, fe, fo, content, mm, size, io⟩
  simp only at hc hs ho hf he hm
  subst hc hs ho hf he hm
  rcases content with _ | ⟨a, as⟩
  · simp [MmapCache.read, MmapCache.openFile, MmapCache.map_file, CacheInv]
  · by_cases hoff : (a :: as).length ≤ off
    · simp [MmapCache.read, CacheInv, hoff, List.drop_eq_nil_of_le hoff]
    · push_neg at hoff
      have hoff2 : ¬ as.length + 1 ≤ off := by
        simp only [List.length_cons] at hoff
        omega
      have h2 : off + min len (as.length + 1 - off) ≤ as.length + 1 := by
        have := Nat.min_le_right len (as.length + 1 - off)
        omega
      simp [MmapCache.read, CacheInv, hoff2, h2]

/-- `MemoryMappedCache::finalize(n)` on an open cache with a live file
handle succeeds and leaves both the `size` field and the on-disk length at
exactly `n`. -/
theorem cache_finalize_exact (c : MmapCache) (n : Nat)
    (ho : c.isOpen = true) (hf : c.fileOpen = true) :
    (c.finalize n).2 = true ∧ (c.finalize n).1.size = n ∧
    (c.finalize n).1.content.length = n := by
  rcases c with ⟨path, fe, fo, content, mm, size, io⟩
  simp only at ho hf
  subst ho hf
  rcases n with _ | m
  · simp [MmapCache.finalize, MmapCache.resize, MmapCache.map_file, setLen]
  · simp [MmapCache.finalize, MmapCache.resize, MmapCache.map_file,
      setLen_length]

/-- `MemoryMappedCache::finalize(B.length)` on a cache holding exactly `B`
succeeds and preserves the invariant (the resize is to the current size). -/
theorem cache_finalize_inv (c : MmapCache) (B : List Byte) (h : CacheInv c B) :
    (c.finalize B.length).2 = true ∧ CacheInv (c.finalize B.length).1 B := by
  obtain ⟨hc, hs, ho, hf, he, hm⟩ := h
  rcases c with ⟨path, fe, fo, content, mm, size, io⟩
  simp only at hc hs ho hf he hm
  subst hc hs ho hf he hm
  rcases content with _ | ⟨a, as⟩
  · simp [MmapCache.finalize, MmapCache.resize, MmapCache.map_file, CacheInv,
      setLen]
  · have hself := setLen_self (a :: as)
    simp only [List.length_cons] at hself
    simp [MmapCache.finalize, MmapCache.resize, MmapCache.map_file, CacheInv,
      hself]

theorem updateStream_lookup (r : Registry) (id : String) (ctx : StreamContext)
    (k : String) :
    updateStream r id ctx k = if k = id then some ctx else r k := rfl

/-- `create_stream` on a fresh id succeeds and establishes the invariant
with an empty payload. -/
theorem create_stream_inv (sm : StreamManager) (id : String) (now : Nat)
    (h : sm.streams id = none) :
    (sm.create_stream id now).2 = true ∧
    StreamInv (sm.create_stream id now).1 id [] := by
  simp [StreamManager.create_stream, h, MmapCache.create, MmapCache.new,
    MmapCache.map_file, StreamInv, CtxInv, CacheOptInv, CacheInv,
    StreamContext.new, updateStream_lookup]

/-- `write_chunk` moves the invariant from payload `acc` to `acc ++ data`
(for an empty `data` the call reports failure but changes no payload). -/
theorem write_chunk_inv (sm : StreamManager) (id : String)
    (data acc : List Byte) (now : Nat) (h : StreamInv sm id acc) :
    StreamInv (sm.write_chunk id data now).1 id (acc ++ data) := by
  rcases hlook : sm.streams id with _ | ctx
  · simp [StreamInv, hlook, CtxInv] at h
  · simp only [StreamInv, hlook, CtxInv] at h
    obtain ⟨hst, hco, hts, hcache⟩ := h
    rcases hmf : ctx.mmapFile with _ | cache
    · rw [hmf] at hcache
      simp [CacheOptInv] at hcache
    · rw [hmf] at hcache
      simp only [CacheOptInv] at hcache
      obtain ⟨hw2, hwInv⟩ := cache_write_append cache acc data hcache
      simp only [StreamManager.write_chunk, StreamManager.get_stream, hlook]
      rcases data with _ | ⟨b, bs⟩
      · have hnot : ¬ (0 : Nat) < (cache.write acc.length []).2 := by
          rw [hw2]
          simp
        have hwInv2 := hwInv
        simp only [List.append_nil] at hwInv2
        simp [hst, hmf, hnot, StreamInv, CtxInv, CacheOptInv,
          updateStream_lookup, hco, hts, hwInv2]
      · have hpos : (0 : Nat) < (cache.write acc.length (b :: bs)).2 := by
          rw [hw2]
          simp
        simp [hst, hmf, hpos, StreamInv, CtxInv, CacheOptInv,
          updateStream_lookup, hco, hts, hw2, hwInv]

/-- `writeAll` appends the flattened chunk list to the payload. -/
theorem writeAll_inv (sm : StreamManager) (id : String)
    (chunks : List (List Byte)) (acc : List Byte) (now : Nat)
    (h : StreamInv sm id acc) :
    StreamInv (writeAll sm id chunks now) id (acc ++ chunks.flatten) := by
  induction chunks generalizing sm acc with
  | nil => simpa [writeAll] using h
  | cons c cs ih =>
    have h2 := ih _ _ (write_chunk_inv sm id c acc now h)
    simpa [writeAll, List.append_assoc] using h2

/-- `finalize_stream` on an uploading stream satisfying the invariant
succeeds and produces the READY state with the exact payload. -/
theorem finalize_stream_inv (sm : StreamManager) (id : String) (B : List Byte)
    (now : Nat) (h : StreamInv sm id B) :
    (sm.finalize_stream id now).2 = true ∧
    ReadyInv (sm.finalize_stream id now).1 id B := by
  rcases hlook : sm.streams id with _ | ctx
  · simp [StreamInv, hlook, CtxInv] at h
  · simp only [StreamInv, hlook, CtxInv] at h
    obtain ⟨hst, hco, hts, hcache⟩ := h
    rcases hmf : ctx.mmapFile with _ | cache
    · rw [hmf] at hcache
      simp [CacheOptInv] at hcache
    · rw [hmf] at hcache
      simp only [CacheOptInv] at hcache
      obtain ⟨hf2, hfInv⟩ := cache_finalize_inv cache B hcache
      simp only [StreamManager.finalize_stream, StreamManager.get_stream, hlook]
      simp [hst, hmf, hf2, ReadyInv, ReadyCtxInv, CacheOptInv,
        updateStream_lookup, hts, hfInv]

/-- `read_chunk` on a READY stream returns the truncated slice and leaves
the stream READY with the same payload. -/
theorem read_chunk_ready (sm : StreamManager) (id : String) (B : List Byte)
    (off len now : Nat) (h : ReadyInv sm id B) :
    (sm.read_chunk id off len now).2
      = (B.drop off).take (min len (B.length - off)) ∧
    ReadyInv (sm.read_chunk id off len now).1 id B := by
  rcases hlook : sm.streams id with _ | ctx
  · simp [ReadyInv, hlook, ReadyCtxInv] at h
  · simp only [ReadyInv, hlook, ReadyCtxInv] at h
    obtain ⟨hst, hts, hcache⟩ := h
    rcases hmf : ctx.mmapFile with _ | cache
    · rw [hmf] at hcache
      simp [CacheOptInv] at hcache
    · rw [hmf] at hcache
      simp only [CacheOptInv] at hcache
      obtain ⟨hr2, hrInv⟩ := cache_read_inv cache B off len hcache
      simp only [StreamManager.read_chunk, StreamManager.get_stream, hlook]
      simp [hmf, hr2, ReadyInv, ReadyCtxInv, CacheOptInv, updateStream_lookup,
        hst, hts, hrInv]

/-- Reading consecutive ranges of total length `ls.sum` starting at `off`
returns the corresponding slice of the payload. -/
theorem readAll_ranges (id : String) (B : List Byte) (now : Nat) :
    ∀ (ls : List Nat) (off : Nat) (sm : StreamManager), ReadyInv sm id B →
    off + ls.sum ≤ B.length →
    (readAll sm id now (rangesOf off ls)).2 = (B.drop off).take ls.sum ∧
    ReadyInv (readAll sm id now (rangesOf off ls)).1 id B := by
  intro ls
  induction ls with
  | nil =>
    intro off sm h _
    simpa [readAll, rangesOf] using h
  | cons l rest ih =>
    intro off sm h hle
    obtain ⟨hr, hinv⟩ := read_chunk_ready sm id B off l now h
    have hsum : off + (l + rest.sum) ≤ B.length := by simpa using hle
    have hmin : min l (B.length - off) = l := Nat.min_eq_left (by omega)
    obtain ⟨ih1, ih2⟩ := ih (off + l) _ hinv (by omega)
    refine ⟨?_, by simpa [readAll, rangesOf] using ih2⟩
    simp only [readAll, rangesOf, hr, hmin, ih1, List.sum_cons]
    rw [List.take_add]
    congr 1
    rw [List.drop_drop]

/-- `MemoryMappedCache::write` with empty data returns `0` from every
branch: the success branch returns `data.len()`, which is `0`, and every
failure branch returns `0`. -/
theorem write_empty_zero (c : MmapCache) (offset : Nat) :
    (c.write offset []).2 = 0 := by
  simp only [MmapCache.write]
  split_ifs <;> simp

/-- `write_chunk` never touches registry entries other than its target. -/
theorem write_chunk_preserves_other (sm : StreamManager) (id2 : String)
    (data : List Byte) (now : Nat) (k : String) (hke : k ≠ id2) :
    (sm.write_chunk id2 data now).1.streams k = sm.streams k := by
  rcases hk : sm.streams id2 with _ | ctx
  · simp [StreamManager.write_chunk, StreamManager.get_stream, hk]
  · by_cases hst : ctx.status = .uploading
    · rcases hmf : ctx.mmapFile with _ | cache
      · simp [StreamManager.write_chunk, StreamManager.get_stream, hk, hst,
          hmf, updateStream_lookup, hke]
      · by_cases hw : 0 < (cache.write ctx.currentOffset data).2
        · simp [StreamManager.write_chunk, StreamManager.get_stream, hk, hst,
            hmf, hw, updateStream_lookup, hke]
        · simp [StreamManager.write_chunk, StreamManager.get_stream, hk, hst,
            hmf, hw, updateStream_lookup, hke]
    · simp [StreamManager.write_chunk, StreamManager.get_stream, hk, hst,
        updateStream_lookup, hke]

/-- `create_stream` never changes an existing registry entry. -/
theorem create_stream_preserves_some (sm : StreamManager) (id2 : String)
    (now : Nat) (k : String) (c : StreamContext) (hk : sm.streams k = some c) :
    (sm.create_stream id2 now).1.streams k = some c := by
  by_cases hex : (sm.streams id2).isSome
  · simp [StreamManager.create_stream, hex, hk]
  · have hke : k ≠ id2 := by
      intro hcontra
      subst hcontra
      simp [hk] at hex
    simp [StreamManager.create_stream, hex, MmapCache.create, MmapCache.new,
      MmapCache.map_file, updateStream_lookup, hke, hk]

/-- `write_chunk` never changes any stream's status. -/
theorem write_chunk_status (sm : StreamManager) (id2 : String)
    (data : List Byte) (now : Nat) (k : String) :
    ((sm.write_chunk id2 data now).1.streams k).map (fun c => c.status)
      = (sm.streams k).map (fun c => c.status) := by
  by_cases hke : k = id2
  · subst hke
    rcases hk : sm.streams k with _ | ctx
    · simp [StreamManager.write_chunk, StreamManager.get_stream, hk]
    · by_cases hst : ctx.status = .uploading
      · rcases hmf : ctx.mmapFile with _ | cache
        · simp [StreamManager.write_chunk, StreamManager.get_stream, hk, hst,
            hmf, updateStream_lookup]
        · by_cases hw : 0 < (cache.write ctx.currentOffset data).2
          · simp [StreamManager.write_chunk, StreamManager.get_stream, hk,
              hst, hmf, hw, updateStream_lookup]
          · simp [StreamManager.write_chunk, StreamManager.get_stream, hk,
              hst, hmf, hw, updateStream_lookup]
      · simp [StreamManager.write_chunk, StreamManager.get_stream, hk, hst,
          updateStream_lookup]
  · rw [write_chunk_preserves_other sm id2 data now k hke]

/-- `read_chunk` never changes any stream's status. -/
theorem read_chunk_status (sm : StreamManager) (id2 : String)
    (off len now : Nat) (k : String) :
    ((sm.read_chunk id2 off len now).1.streams k).map (fun c => c.status)
      = (sm.streams k).map (fun c => c.status) := by
  rcases hk : sm.streams id2 with _ | ctx
  · simp [StreamManager.read_chunk, StreamManager.get_stream, hk]
  · rcases hmf : ctx.mmapFile with _ | cache
    · by_cases hke : k = id2
      · subst hke
        simp [StreamManager.read_chunk, StreamManager.get_stream, hk, hmf,
          updateStream_lookup]
      · simp [StreamManager.read_chunk, StreamManager.get_stream, hk, hmf,
          updateStream_lookup, hke]
    · by_cases hke : k = id2
      · subst hke
        simp [StreamManager.read_chunk, StreamManager.get_stream, hk, hmf,
          updateStream_lookup]
      · simp [StreamManager.read_chunk, StreamManager.get_stream, hk, hmf,
          updateStream_lookup, hke]

/-- The status transition `finalize_stream` may perform on any entry:
either the status is unchanged, or it moves the target stream from
UPLOADING to READY. -/
theorem finalize_stream_status (sm : StreamManager) (id2 : String)
    (now : Nat) (k : String) (c c2 : StreamContext)
    (hpre : sm.streams k = some c)
    (hpost : (sm.finalize_stream id2 now).1.streams k = some c2) :
    c2.status = c.status ∨
      (c.status = .uploading ∧ c2.status = .ready ∧ k = id2) := by
  rcases hk : sm.streams id2 with _ | ctx
  · rw [StreamManager.finalize_stream] at hpost
    simp only [StreamManager.get_stream, hk] at hpost
    rw [hpre] at hpost
    left
    injection hpost with h
    rw [h]
  · by_cases hke : k = id2
    · subst hke
      rw [hk] at hpre
      injection hpre with hpre2
      subst hpre2
      by_cases hst : ctx.status = .uploading
      · rcases hmf : ctx.mmapFile with _ | cache
        · simp [StreamManager.finalize_stream, StreamManager.get_stream, hk,
            hst, hmf, updateStream_lookup] at hpost
          left
          rw [← hpost]
          simp [hst]
        · by_cases hfin : (cache.finalize ctx.totalSize).2 = true
          · simp [StreamManager.finalize_stream, StreamManager.get_stream,
              hk, hst, hmf, hfin, updateStream_lookup] at hpost
            right
            rw [← hpost]
            exact ⟨hst, rfl, rfl⟩
          · simp [StreamManager.finalize_stream, StreamManager.get_stream,
              hk, hst, hmf, hfin, updateStream_lookup] at hpost
            left
            rw [← hpost]
            simp [hst]
      · simp [StreamManager.finalize_stream, StreamManager.get_stream, hk,
          hst, updateStream_lookup] at hpost
        left
        rw [← hpost]
    · have hother : (sm.finalize_stream id2 now).1.streams k = sm.streams k := by
        by_cases hst : ctx.status = .uploading
        · rcases hmf : ctx.mmapFile with _ | cache
          · simp [StreamManager.finalize_stream, StreamManager.get_stream,
              hk, hst, hmf, updateStream_lookup, hke]
          · by_cases hfin : (cache.finalize ctx.totalSize).2 = true
            · simp [StreamManager.finalize_stream, StreamManager.get_stream,
                hk, hst, hmf, hfin, updateStream_lookup, hke]
            · simp [StreamManager.finalize_stream, StreamManager.get_stream,
                hk, hst, hmf, hfin, updateStream_lookup, hke]
        · simp [StreamManager.finalize_stream, StreamManager.get_stream, hk,
            hst, updateStream_lookup, hke]
      rw [hother, hpre] at hpost
      left
      injection hpost with h
      rw [h]

/-- Claim C1: round-trip.  For every byte sequence B, every splitting of B
into chunks, and every splitting of the index range into consecutive read
ranges, creating a stream, appending the chunks via write_chunk in order,
finalizing the stream, and concatenating the read_chunk results over the
read ranges yields exactly B. -/
theorem claim1_roundtrip (sm : StreamManager) (id : String)
    (chunks : List (List Byte)) (B : List Byte) (ls : List Nat)
    (now1 now2 now3 : Nat) (h0 : sm.streams id = none)
    (hB : chunks.flatten = B) (hls : ls.sum = B.length) :
    (readAll ((writeAll (sm.create_stream id now1).1 id chunks
        now1).finalize_stream id now2).1 id now3 (rangesOf 0 ls)).2 = B := by
  obtain ⟨-, hinv0⟩ := create_stream_inv sm id now1 h0
  have hinv1 := writeAll_inv _ id chunks [] now1 hinv0
  rw [List.nil_append, hB] at hinv1
  obtain ⟨-, hready⟩ := finalize_stream_inv _ id B now2 hinv1
  obtain ⟨hread, -⟩ := readAll_ranges id B now3 ls 0 _ hready (by omega)
  rw [hread, List.drop_zero, hls, List.take_length]

/-- Witness for claim C1 at a concrete instance. -/
theorem claim1_roundtrip_witness :
    emptyManager.streams "s1" = none ∧
    ([[1, 2], [3]] : List (List Byte)).flatten = [1, 2, 3] ∧
    ([2, 1] : List Nat).sum = ([1, 2, 3] : List Byte).length ∧
    (readAll ((writeAll (emptyManager.create_stream "s1" 1).1 "s1"
        [[1, 2], [3]] 1).finalize_stream "s1" 2).1 "s1" 3
        (rangesOf 0 [2, 1])).2 = [1, 2, 3] :=
  ⟨rfl, rfl, rfl,
    claim1_roundtrip emptyManager "s1" [[1, 2], [3]] [1, 2, 3] [2, 1] 1 2 3
      rfl rfl rfl⟩

/-- Claim C2: finalize exactness.  For every stream in UPLOADING state whose
cache is open with a live file handle, finalize_stream succeeds, the status
becomes READY, and the cache size field and the on-disk length both equal
total_size (which write_chunk maintains as the sum of all bytes successfully
written, see StreamInv / writeAll_inv). -/
theorem claim2_finalize_exact (sm : StreamManager) (id : String)
    (ctx : StreamContext) (cache : MmapCache) (now : Nat)
    (hlook : sm.streams id = some ctx) (hst : ctx.status = .uploading)
    (hmf : ctx.mmapFile = some cache) (ho : cache.isOpen = true)
    (hfo : cache.fileOpen = true) :
    (sm.finalize_stream id now).2 = true ∧
    ∃ ctx2 cache2, (sm.finalize_stream id now).1.streams id = some ctx2 ∧
      ctx2.status = .ready ∧ ctx2.totalSize = ctx.totalSize ∧
      ctx2.mmapFile = some cache2 ∧ cache2.size = ctx.totalSize ∧
      cache2.content.length = ctx.totalSize := by
  obtain ⟨hf2, hsz, hlen⟩ := cache_finalize_exact cache ctx.totalSize ho hfo
  simp only [StreamManager.finalize_stream, StreamManager.get_stream, hlook]
  simp [hst, hmf, hf2, updateStream_lookup, hsz, hlen]

/-- Witness for claim C2 at a concrete instance. -/
theorem claim2_finalize_exact_witness :
    sampleManager.streams "s1" = some sampleContext ∧
    sampleContext.status = .uploading ∧
    sampleContext.mmapFile = some sampleCache0 ∧
    sampleCache0.isOpen = true ∧ sampleCache0.fileOpen = true ∧
    ((sampleManager.finalize_stream "s1" 3).2 = true ∧
     ∃ ctx2 cache2,
       (sampleManager.finalize_stream "s1" 3).1.streams "s1" = some ctx2 ∧
       ctx2.status = .ready ∧ ctx2.totalSize = sampleContext.totalSize ∧
       ctx2.mmapFile = some cache2 ∧ cache2.size = sampleContext.totalSize ∧
       cache2.content.length = sampleContext.totalSize) :=
  ⟨by decide, by decide, by decide, by decide, by decide,
    claim2_finalize_exact sampleManager "s1" sampleContext sampleCache0 3
      (by decide) (by decide) (by decide) (by decide) (by decide)⟩

/-- Claim C3: the code holds the registry lock while issuing the deletes.
Evaluated at a registry holding one stream whose last access is older than
max_age: the stream is selected for deletion, and the lock trace of
cleanup_old_streams re-acquires the registry mutex inside delete_stream
while the guard taken at the top of cleanup_old_streams is still live (for
std Mutex this deadlocks), contradicting the claim that the deletes are
issued without holding the registry lock. -/
theorem claim3_cleanup_nested_acquire :
    cleanup_to_remove [("s1", staleContext)] 7201 1 = ["s1"] ∧
    hasNestedAcquire (cleanup_old_streams_locks [("s1", staleContext)] 7201 1)
      = true := by decide

/-- Claim C4: failed-write atomicity.  Whenever write_chunk reports failure,
the target stream's current_offset and total_size are unchanged. -/
theorem claim4_failed_write_atomic (sm : StreamManager) (id : String)
    (data : List Byte) (now : Nat)
    (h : (sm.write_chunk id data now).2 = false) :
    ((sm.write_chunk id data now).1.streams id).map
        (fun c => (c.currentOffset, c.totalSize))
      = (sm.streams id).map (fun c => (c.currentOffset, c.totalSize)) := by
  rcases hk : sm.streams id with _ | ctx
  · simp [StreamManager.write_chunk, StreamManager.get_stream, hk]
  · by_cases hst : ctx.status = .uploading
    · rcases hmf : ctx.mmapFile with _ | cache
      · simp [StreamManager.write_chunk, StreamManager.get_stream, hk, hst,
          hmf, updateStream_lookup]
      · by_cases hw : 0 < (cache.write ctx.currentOffset data).2
        · exfalso
          simp [StreamManager.write_chunk, StreamManager.get_stream, hk, hst,
            hmf, hw] at h
        · simp [StreamManager.write_chunk, StreamManager.get_stream, hk, hst,
            hmf, hw, updateStream_lookup]
    · simp [StreamManager.write_chunk, StreamManager.get_stream, hk, hst,
        updateStream_lookup]

/-- Witness for claim C4 at a concrete failing write. -/
theorem claim4_failed_write_atomic_witness :
    (emptyManager.write_chunk "s1" [1] 0).2 = false ∧
    ((emptyManager.write_chunk "s1" [1] 0).1.streams "s1").map
        (fun c => (c.currentOffset, c.totalSize))
      = (emptyManager.streams "s1").map
          (fun c => (c.currentOffset, c.totalSize)) :=
  ⟨by decide, claim4_failed_write_atomic emptyManager "s1" [1] 0 (by decide)⟩

/-- Claim C5, counterexample: on a concrete open, mapped cache, close()
drops the mapping but the file handle is still held and is_open is still
true, so the claim that close() drops the file handle and clears is_open is
false on the code. -/
theorem claim5_close_counterexample :
    (MmapCache.close sampleOpenCache).mmapped = false ∧
    (MmapCache.close sampleOpenCache).fileOpen = true ∧
    (MmapCache.close sampleOpenCache).isOpen = true := by decide

/-- Claim C5, amended: after close() on an open Mapped Cache File the
mapping is dropped and nothing else changes: the file handle is retained,
is_open remains true, and content and size are untouched. -/
theorem claim5_close_unmaps_only (c : MmapCache) (h : c.isOpen = true) :
    (MmapCache.close c).mmapped = false ∧
    (MmapCache.close c).fileOpen = c.fileOpen ∧
    (MmapCache.close c).isOpen = true ∧
    (MmapCache.close c).content = c.content ∧
    (MmapCache.close c).size = c.size := by
  simp [MmapCache.close, h]

/-- Witness for the amended claim C5 at a concrete open cache. -/
theorem claim5_close_unmaps_only_witness :
    sampleOpenCache.isOpen = true ∧
    ((MmapCache.close sampleOpenCache).mmapped = false ∧
     (MmapCache.close sampleOpenCache).fileOpen = sampleOpenCache.fileOpen ∧
     (MmapCache.close sampleOpenCache).isOpen = true ∧
     (MmapCache.close sampleOpenCache).content = sampleOpenCache.content ∧
     (MmapCache.close sampleOpenCache).size = sampleOpenCache.size) :=
  ⟨by decide, claim5_close_unmaps_only sampleOpenCache (by decide)⟩

/-- Claim C6: for every GET message carrying a streamId, the handler invokes
read_chunk with the message offset (default 0) and length (default 65536);
a non-empty result is sent as one binary frame, an empty result produces an
ERROR reply; the manager state is the one read_chunk returns. -/
theorem claim6_handle_get (st : ServerConn) (sid : String)
    (off2 len2 : Option Nat) (now : Nat) :
    handle_get st ⟨some sid, off2, len2⟩ now =
      ({ st with
          mgr := (st.mgr.read_chunk sid (off2.getD 0) (len2.getD 65536) now).1 },
       if (st.mgr.read_chunk sid (off2.getD 0) (len2.getD 65536) now).2.isEmpty
       then HandlerReply.errorReply ("Failed to read from stream: " ++ sid)
       else HandlerReply.binaryFrame
         (st.mgr.read_chunk sid (off2.getD 0) (len2.getD 65536) now).2) := by
  by_cases he : (st.mgr.read_chunk sid (off2.getD 0) (len2.getD 65536) now).2.isEmpty
  · simp [handle_get, he]
  · simp [handle_get, he]

/-- Claim C7: read(offset, length) on an open cache (mapping in sync, per
invariants M1 and M2 of an open cache) returns exactly the mapped bytes in
the truncated range when offset < size, and the empty vector when
offset is at or past the size. -/
theorem claim7_read_truncated (c : MmapCache) (offset length : Nat)
    (ho : c.isOpen = true) (hsync : c.size = c.content.length)
    (hm : c.mmapped = true ∨ c.size = 0) :
    (offset < c.size →
      (c.read offset length).2
        = (c.content.drop offset).take (min length (c.size - offset))) ∧
    (c.size ≤ offset → (c.read offset length).2 = []) := by
  rcases c with ⟨path, fe, fo, content, mm, size, io⟩
  simp only at ho hsync hm ⊢
  subst ho hsync
  constructor
  · intro hlt
    rcases hm with hm | hs0
    · subst hm
      have hnle : ¬ content.length ≤ offset := by omega
      have hbound :
          offset + min length (content.length - offset) ≤ content.length := by
        have := Nat.min_le_right length (content.length - offset)
        omega
      simp [MmapCache.read, hnle, hbound]
    · omega
  · intro hge
    rcases hm with hm | hs0
    · subst hm
      simp [MmapCache.read, hge]
    · cases mm with
      | true => simp [MmapCache.read, hge]
      | false =>
        have hcontent : content = [] := List.length_eq_zero.mp hs0
        subst hcontent
        cases fe <;>
          simp [MmapCache.read, MmapCache.openFile, MmapCache.map_file]

/-- Witness for claim C7 at a concrete open mapped cache. -/
theorem claim7_read_truncated_witness :
    sampleOpenCache.isOpen = true ∧
    sampleOpenCache.size = sampleOpenCache.content.length ∧
    (sampleOpenCache.mmapped = true ∨ sampleOpenCache.size = 0) ∧
    ((0 < sampleOpenCache.size →
      (sampleOpenCache.read 0 5).2
        = (sampleOpenCache.content.drop 0).take
            (min 5 (sampleOpenCache.size - 0))) ∧
     (sampleOpenCache.size ≤ 0 → (sampleOpenCache.read 0 5).2 = [])) :=
  ⟨by decide, by decide, Or.inl (by decide),
    claim7_read_truncated sampleOpenCache 0 5 (by decide) (by decide)
      (Or.inl (by decide))⟩

/-- Claim C8, counterexample: on the freshly created stream s1, the cache
write returns 0 (here for an empty chunk), write_chunk reports failure, and
the status is still UPLOADING, not ERROR: no code path ever sets ERROR, so
the claimed UPLOADING-to-ERROR transition on write failure is false on the
code. -/
theorem claim8_no_error_transition_counterexample :
    (MmapCache.write sampleCache0 0 []).2 = 0 ∧
    (sampleManager.write_chunk "s1" [] 1).2 = false ∧
    ((sampleManager.write_chunk "s1" [] 1).1.streams "s1").map
        (fun c => c.status) = some StreamStatus.uploading := by decide

/-- Claim C8, amended: a failed cache write leaves the status unchanged; the
only status transition any registry operation performs on any stream is
UPLOADING to READY, via finalize_stream on that stream; no operation ever
sets ERROR. -/
theorem claim8_only_transition_is_finalize (sm : StreamManager) (op : MgrOp)
    (now : Nat) (id : String) (ctx ctx2 : StreamContext)
    (hpre : sm.streams id = some ctx)
    (hpost : (sm.applyOp op now).streams id = some ctx2) :
    ctx2.status = ctx.status ∨
      (ctx.status = .uploading ∧ ctx2.status = .ready ∧
        op = .opFinalize id) := by
  rcases op with id2 | ⟨id2, data⟩ | ⟨id2, off, len⟩ | id2 | id2
  · left
    simp only [StreamManager.applyOp] at hpost
    rw [create_stream_preserves_some sm id2 now id ctx hpre] at hpost
    injection hpost with h
    rw [← h]
  · left
    simp only [StreamManager.applyOp] at hpost
    have hstat := write_chunk_status sm id2 data now id
    rw [hpost, hpre] at hstat
    simpa using hstat
  · left
    simp only [StreamManager.applyOp] at hpost
    have hstat := read_chunk_status sm id2 off len now id
    rw [hpost, hpre] at hstat
    simpa using hstat
  · simp only [StreamManager.applyOp] at hpost
    rcases finalize_stream_status sm id2 now id ctx ctx2 hpre hpost with
      h | ⟨h1, h2, h3⟩
    · exact Or.inl h
    · exact Or.inr ⟨h1, h2, by rw [h3]⟩
  · left
    simp only [StreamManager.applyOp, StreamManager.delete_stream] at hpost
    rcases hk : sm.streams id2 with _ | cctx
    · simp only [hk] at hpost
      rw [hpre] at hpost
      injection hpost with h
      rw [← h]
    · simp only [hk] at hpost
      by_cases hke : id = id2
      · subst hke
        rw [if_pos rfl] at hpost
        exact Option.noConfusion hpost
      · rw [if_neg hke] at hpost
        rw [hpre] at hpost
        injection hpost with h
        rw [← h]

/-- Witness for the amended claim C8: the one transition that does occur,
UPLOADING to READY via finalize_stream, at a concrete instance. -/
theorem claim8_only_transition_is_finalize_witness :
    sampleManager.streams "s1" = some sampleContext ∧
    (sampleManager.applyOp (.opFinalize "s1") 3).streams "s1"
      = some finalizedContext ∧
    (finalizedContext.status = sampleContext.status ∨
      (sampleContext.status = .uploading ∧
        finalizedContext.status = .ready ∧
        (MgrOp.opFinalize "s1") = .opFinalize "s1")) :=
  ⟨by decide, by decide,
    claim8_only_transition_is_finalize sampleManager (.opFinalize "s1") 3
      "s1" sampleContext finalizedContext (by decide) (by decide)⟩

/-- Claim C9, counterexample: with the connection bound to the uploading
stream s1, a START carrying the fresh id given by the empty string succeeds
and overwrites the binding, but a subsequent binary frame is discarded (the
empty binding means no active stream), appended neither to the new stream
nor to s1 - so the claim that subsequent frames are appended to the new
stream fails at this input. -/
theorem claim9_empty_id_counterexample :
    ((handle_start sampleConn 0 ⟨some "", none, none⟩ 1).2
        = HandlerReply.startedReply "") ∧
    ((handle_start sampleConn 0 ⟨some "", none, none⟩ 1).1.clients 0
        = some "") ∧
    (((handle_binary_message
          (handle_start sampleConn 0 ⟨some "", none, none⟩ 1).1 0 [7]
          2).mgr.streams "").map (fun c => c.totalSize) = some 0) ∧
    (((handle_binary_message
          (handle_start sampleConn 0 ⟨some "", none, none⟩ 1).1 0 [7]
          2).mgr.streams "s1").map (fun c => c.totalSize) = some 0) := by
  decide

/-- Claim C9, amended: for a connection bound to an UPLOADING stream s1, a
successful START for a fresh, nonempty id s2 unconditionally overwrites the
binding with s2; s1 remains in the registry untouched (still UPLOADING),
and subsequent binary frames are appended to s2, never to s1.  (When s2 is
the empty string the START still succeeds and rebinds, but binary frames
are then discarded, because the empty binding denotes no active stream.) -/
theorem claim9_start_rebinds (st : ServerConn) (cid : Nat) (s1 s2 : String)
    (ctx1 : StreamContext) (d : List Byte) (now1 now2 : Nat)
    (hbind : st.clients cid = some s1)
    (h1 : st.mgr.streams s1 = some ctx1) (hs1 : ctx1.status = .uploading)
    (h2 : st.mgr.streams s2 = none) (hs2 : s2 ≠ "") (hd : d ≠ []) :
    ((handle_start st cid ⟨some s2, none, none⟩ now1).2
        = HandlerReply.startedReply s2) ∧
    ((handle_start st cid ⟨some s2, none, none⟩ now1).1.clients cid
        = some s2) ∧
    ((handle_binary_message
        (handle_start st cid ⟨some s2, none, none⟩ now1).1 cid d
        now2).mgr.streams s1 = some ctx1) ∧
    (∃ ctx2 cache2,
      (handle_binary_message
          (handle_start st cid ⟨some s2, none, none⟩ now1).1 cid d
          now2).mgr.streams s2 = some ctx2 ∧
      ctx2.status = .uploading ∧ ctx2.currentOffset = d.length ∧
      ctx2.totalSize = d.length ∧ ctx2.mmapFile = some cache2 ∧
      cache2.content = d) := by
  obtain ⟨hcr, hinv0⟩ := create_stream_inv st.mgr s2 now1 h2
  have hne : s1 ≠ s2 := by
    intro hcontra
    rw [hcontra, h2] at h1
    exact Option.noConfusion h1
  have hinv2 := write_chunk_inv (st.mgr.create_stream s2 now1).1 s2 d [] now2
    hinv0
  rw [List.nil_append] at hinv2
  have hstart1 : (handle_start st cid ⟨some s2, none, none⟩ now1).1
      = { clients := fun k => if k = cid then some s2 else st.clients k,
          mgr := (st.mgr.create_stream s2 now1).1 } := by
    simp [handle_start, hcr]
  have hstart2 : (handle_start st cid ⟨some s2, none, none⟩ now1).2
      = HandlerReply.startedReply s2 := by
    simp [handle_start, hcr]
  have hbin : handle_binary_message
      (handle_start st cid ⟨some s2, none, none⟩ now1).1 cid d now2
      = { clients := fun k => if k = cid then some s2 else st.clients k,
          mgr := ((st.mgr.create_stream s2 now1).1.write_chunk s2 d
            now2).1 } := by
    rw [hstart1]
    simp [handle_binary_message, hs2]
  refine ⟨hstart2, ?_, ?_, ?_⟩
  · rw [hstart1]
    simp
  · rw [hbin]
    show ((st.mgr.create_stream s2 now1).1.write_chunk s2 d now2).1.streams s1
      = some ctx1
    rw [write_chunk_preserves_other _ s2 d now2 s1 hne,
      create_stream_preserves_some st.mgr s2 now1 s1 ctx1 h1]
  · rw [hbin]
    show ∃ ctx2 cache2,
      ((st.mgr.create_stream s2 now1).1.write_chunk s2 d now2).1.streams s2
        = some ctx2 ∧
      ctx2.status = .uploading ∧ ctx2.currentOffset = d.length ∧
      ctx2.totalSize = d.length ∧ ctx2.mmapFile = some cache2 ∧
      cache2.content = d
    rcases hk2 : ((st.mgr.create_stream s2 now1).1.write_chunk s2 d
        now2).1.streams s2 with _ | ctx2
    · rw [StreamInv] at hinv2
      rw [hk2] at hinv2
      exact absurd hinv2 (by simp [CtxInv])
    · simp only [StreamInv, hk2, CtxInv] at hinv2
      obtain ⟨hst2, hco2, hts2, hcache2⟩ := hinv2
      rcases hmf2 : ctx2.mmapFile with _ | cache2
      · rw [hmf2] at hcache2
        simp [CacheOptInv] at hcache2
      · rw [hmf2] at hcache2
        simp only [CacheOptInv] at hcache2
        exact ⟨ctx2, cache2, rfl, hst2, hco2, hts2, hmf2, hcache2.1⟩

/-- Witness for the amended claim C9 at a concrete instance. -/
theorem claim9_start_rebinds_witness :
    sampleConn.clients 0 = some "s1" ∧
    sampleConn.mgr.streams "s1" = some sampleContext ∧
    sampleContext.status = .uploading ∧
    sampleConn.mgr.streams "s2" = none ∧
    ("s2" : String) ≠ "" ∧ ([7, 8] : List Byte) ≠ [] ∧
    (((handle_start sampleConn 0 ⟨some "s2", none, none⟩ 1).2
        = HandlerReply.startedReply "s2") ∧
     ((handle_start sampleConn 0 ⟨some "s2", none, none⟩ 1).1.clients 0
        = some "s2") ∧
     ((handle_binary_message
         (handle_start sampleConn 0 ⟨some "s2", none, none⟩ 1).1 0 [7, 8]
         2).mgr.streams "s1" = some sampleContext) ∧
     (∃ ctx2 cache2,
       (handle_binary_message
           (handle_start sampleConn 0 ⟨some "s2", none, none⟩ 1).1 0 [7, 8]
           2).mgr.streams "s2" = some ctx2 ∧
       ctx2.status = .uploading ∧
       ctx2.currentOffset = ([7, 8] : List Byte).length ∧
       ctx2.totalSize = ([7, 8] : List Byte).length ∧
       ctx2.mmapFile = some cache2 ∧ cache2.content = [7, 8])) :=
  ⟨by decide, by decide, by decide, by decide, by decide, by decide,
    claim9_start_rebinds sampleConn 0 "s1" "s2" sampleContext [7, 8] 1 2
      (by decide) (by decide) (by decide) (by decide) (by decide)
      (by decide)⟩

/-- Claim C10: write with empty data on an open cache returns 0, the same
value as every failure, so write_chunk with an empty chunk on an UPLOADING
stream reports failure even though no error occurred, and the stream's
cursor and total size are unchanged. -/
theorem claim10_empty_write (c : MmapCache) (offset : Nat)
    (sm : StreamManager) (id : String) (ctx : StreamContext) (now : Nat)
    (ho : c.isOpen = true) (hlook : sm.streams id = some ctx)
    (hst : ctx.status = .uploading) (hmf : ctx.mmapFile.isSome = true) :
    (c.write offset []).2 = 0 ∧
    (sm.write_chunk id [] now).2 = false ∧
    ((sm.write_chunk id [] now).1.streams id).map
        (fun c2 => (c2.currentOffset, c2.totalSize))
      = some (ctx.currentOffset, ctx.totalSize) := by
  rcases hmf2 : ctx.mmapFile with _ | cache
  · rw [hmf2] at hmf
    exact absurd hmf (by simp)
  · have hz : ¬ 0 < (cache.write ctx.currentOffset []).2 := by
      rw [write_empty_zero]
      simp
    refine ⟨write_empty_zero c offset, ?_, ?_⟩
    · simp [StreamManager.write_chunk, StreamManager.get_stream, hlook, hst,
        hmf2, hz]
    · simp [StreamManager.write_chunk, StreamManager.get_stream, hlook, hst,
        hmf2, hz, updateStream_lookup]

/-- Witness for claim C10 at a concrete instance. -/
theorem claim10_empty_write_witness :
    sampleOpenCache.isOpen = true ∧
    sampleManager.streams "s1" = some sampleContext ∧
    sampleContext.status = .uploading ∧
    sampleContext.mmapFile.isSome = true ∧
    ((sampleOpenCache.write 3 []).2 = 0 ∧
     (sampleManager.write_chunk "s1" [] 1).2 = false ∧
     ((sampleManager.write_chunk "s1" [] 1).1.streams "s1").map
         (fun c2 => (c2.currentOffset, c2.totalSize))
       = some (sampleContext.currentOffset, sampleContext.totalSize)) :=
  ⟨by decide, by decide, by decide, by decide,
    claim10_empty_write sampleOpenCache 3 sampleManager "s1" sampleContext 1
      (by decide) (by decide) (by decide) (by decide)⟩
